import Mathlib

/-!
Verification of the status-code synchronizer
(Sources/HieroProtobufs/sync_status_codes.py).

The Python script is shallowly embedded: file contents are passed as
character lists, the regular expressions of the script are hand-compiled
into deterministic matchers over those lists (each regex in the script is
deterministic: greedy runs of a character class are always followed by a
token that no character of the class can start, so no backtracking can
change the outcome), and the file system is an explicit association list
from paths to contents.  Machine integers do not occur: the script only
handles small non-negative decimal literals, modelled by Nat.
-/

set_option maxRecDepth 100000

namespace SyncStatus

/-! ## Character classes (ASCII, matching Python str.strip / re \s \w \d) -/

def wsChar (c : Char) : Bool :=
  c = ' ' || c = '\t' || c = '\n' || c = '\r' || c = '\x0b' || c = '\x0c'

def wordChar (c : Char) : Bool :=
  (('a' ≤ c) && (c ≤ 'z')) || (('A' ≤ c) && (c ≤ 'Z')) ||
  (('0' ≤ c) && (c ≤ '9')) || c = '_'

def digitChar (c : Char) : Bool :=
  ('0' ≤ c) && (c ≤ '9')

/-! ## Python string primitives over character lists -/

/-- Python str.strip() (whitespace on both ends). -/
def pstrip (l : List Char) : List Char :=
  ((l.dropWhile wsChar).reverse.dropWhile wsChar).reverse

/-- Python str.lstrip(cs) for an explicit set of characters. -/
def plstrip (cs : List Char) (l : List Char) : List Char :=
  l.dropWhile (fun c => cs.contains c)

/-- Python str.rstrip() (trailing whitespace). -/
def prstrip (l : List Char) : List Char :=
  (l.reverse.dropWhile wsChar).reverse

def lowerL (l : List Char) : List Char := l.map Char.toLower

/-- Python str.capitalize(): first char upper, rest lower. -/
def capitalizeL : List Char → List Char
  | [] => []
  | c :: cs => Char.toUpper c :: lowerL cs

/-- Python str.split(sep) for a single-character separator. -/
def splitOnCharAux (sep : Char) : List Char → List Char → List (List Char)
  | [], acc => [acc.reverse]
  | c :: cs, acc =>
    if c = sep then acc.reverse :: splitOnCharAux sep cs []
    else splitOnCharAux sep cs (c :: acc)

def splitOnChar (sep : Char) (l : List Char) : List (List Char) :=
  splitOnCharAux sep l []

/-- Python sep.join(parts). -/
def joinWith (sep : List Char) (parts : List (List Char)) : List Char :=
  List.intercalate sep parts

def joinSp (parts : List (List Char)) : List Char := joinWith [' '] parts

def splitNl (l : List Char) : List (List Char) := splitOnChar '\n' l

def joinNl (parts : List (List Char)) : List Char := joinWith ['\n'] parts

/-- Python substring test (pat in s). -/
def containsSub (pat : List Char) : List Char → Bool
  | [] => pat.isEmpty
  | c :: cs => pat.isPrefixOf (c :: cs) || containsSub pat cs

/-- One fuel-indexed step list of Python str.replace (replace every
non-overlapping occurrence, scanning left to right).  Fuel is the length
of the scanned list, so the wrapper below never exhausts it. -/
def repAllGo (pat r : List Char) : Nat → List Char → List Char
  | _, [] => []
  | 0, s => s
  | Nat.succ f, c :: cs =>
    if pat.isPrefixOf (c :: cs) then
      r ++ repAllGo pat r f (List.drop (pat.length - 1) cs)
    else
      c :: repAllGo pat r f cs

/-- Python s.replace(pat, r) for a non-empty pat (the script only ever
replaces its hard-coded non-empty anchor strings). -/
def repAll (pat r s : List Char) : List Char :=
  repAllGo pat r s.length s

/-- Decimal digits of a Nat (matching Python str(int) for non-negative ints). -/
def digitOfNat (n : Nat) : Char := Char.ofNat (48 + n)

def natDigitsGo : Nat → Nat → List Char
  | 0, _ => []
  | Nat.succ f, n =>
    if n < 10 then [digitOfNat n]
    else natDigitsGo f (n / 10) ++ [digitOfNat (n % 10)]

def natDigits (n : Nat) : List Char := natDigitsGo (n + 1) n

/-- Value of a non-empty list of decimal digits (Python int(str)). -/
def natOfDigits (l : List Char) : Nat :=
  l.foldl (fun acc c => acc * 10 + (c.toNat - 48)) 0

/-! ## Data model (dataclasses StatusCode and SwiftStatusCode) -/

/-- dataclass StatusCode of sync_status_codes.py. -/
structure StatusCode where
  name : List Char
  code : Nat
  comment : List Char
  deprecated : Bool
deriving DecidableEq, Repr

/-- dataclass SwiftStatusCode of sync_status_codes.py. -/
structure SwiftStatusCode where
  swift_name : List Char
  code : Nat
  comment : List Char
  deprecated : Bool
  line_start : Nat
  line_end : Nat
deriving DecidableEq, Repr

/-! ## Proto-file parser -/

/-- One alternative of the re.sub pattern in _extract_block_comment_text:
consume a slash, a star, an optional second star, then a whitespace run. -/
def matchOpenMarker : List Char → Option (List Char)
  | '/' :: '*' :: rest =>
    match rest with
    | '*' :: rest2 => some (rest2.dropWhile wsChar)
    | _ => some (rest.dropWhile wsChar)
  | _ => none

/-- The other alternative: a whitespace run immediately followed by the
block-comment close marker. -/
def matchCloseMarker (s : List Char) : Option (List Char) :=
  match s.dropWhile wsChar with
  | '*' :: '/' :: rest => some rest
  | _ => none

/-- Scan of re.sub deleting both marker alternatives (left to right,
the open-marker alternative tried first, as in the pattern). -/
def subMarkersGo : Nat → List Char → List Char
  | _, [] => []
  | 0, s => s
  | Nat.succ f, c :: cs =>
    match matchOpenMarker (c :: cs) with
    | some rest => subMarkersGo f rest
    | none =>
      match matchCloseMarker (c :: cs) with
      | some rest => subMarkersGo f rest
      | none => c :: subMarkersGo f cs

/-- _extract_block_comment_text of sync_status_codes.py. -/
def extract_block_comment_text (line : List Char) : List Char :=
  pstrip (subMarkersGo line.length line)

/-- _process_comment_line of sync_status_codes.py: returns the new
accumulator when the line is a comment line, none otherwise.  (The Python
function mutates the accumulator list and returns a Bool.) -/
def process_comment_line (line : List Char) (acc : List (List Char)) :
    Option (List (List Char)) :=
  if ("/*".data).isPrefixOf line then
    let t :=
      if containsSub ("*/".data) line then extract_block_comment_text line
      else []
    some (if t ≠ [] then [t] else [])
  else if ("*".data).isPrefixOf line then
    let t := prstrip (plstrip ['*', ' '] line)
    if t ≠ [] ∧ t ≠ ['/'] then some (acc ++ [t]) else some acc
  else if ("//".data).isPrefixOf line then
    some (acc ++ [pstrip (plstrip ['/', ' '] line)])
  else
    none

/-- The optional deprecation annotation of the enum-value regex:
consume it when it is present at the head, leave the input alone otherwise. -/
def tryDeprBracket (s : List Char) : List Char :=
  if ("[deprecated".data).isPrefixOf s then
    let t1 := (s.drop 11).dropWhile wsChar
    match t1 with
    | '=' :: t2 =>
      let t3 := t2.dropWhile wsChar
      if ("true]".data).isPrefixOf t3 then t3.drop 5 else s
    | _ => s
  else s

/-- Whether the full deprecation annotation is present at the head. -/
def deprBracketAt (s : List Char) : Bool :=
  if ("[deprecated".data).isPrefixOf s then
    match (s.drop 11).dropWhile wsChar with
    | '=' :: t2 => ("true]".data).isPrefixOf (t2.dropWhile wsChar)
    | _ => false
  else false

/-- Whether the deprecation annotation occurs anywhere in the line. -/
def hasDeprBracket : List Char → Bool
  | [] => false
  | c :: cs => deprBracketAt (c :: cs) || hasDeprBracket cs

/-- Hand-compiled enum-value regex of _parse_enum_value:
a word run, an equals sign, a digit run, an optional deprecation
annotation, an optional semicolon and an optional inline line comment,
with whitespace runs between the tokens, anchored on both ends.
Returns (name, code, inline-comment group). -/
def matchEnumValue (line : List Char) :
    Option (List Char × Nat × Option (List Char)) :=
  let name := line.takeWhile wordChar
  if name = [] then none
  else
    match (line.dropWhile wordChar).dropWhile wsChar with
    | '=' :: r3 =>
      let r4 := r3.dropWhile wsChar
      let digits := r4.takeWhile digitChar
      if digits = [] then none
      else
        let r6 := (r4.dropWhile digitChar).dropWhile wsChar
        let r8 := (tryDeprBracket r6).dropWhile wsChar
        let r9 := match r8 with
          | ';' :: t => t
          | _ => r8
        match r9.dropWhile wsChar with
        | '/' :: '/' :: t => some (name, natOfDigits digits, some (t.dropWhile wsChar))
        | [] => some (name, natOfDigits digits, none)
        | _ => none
    | _ => none

/-- _parse_enum_value of sync_status_codes.py. -/
def parse_enum_value (line : List Char) (acc : List (List Char)) :
    Option StatusCode :=
  match matchEnumValue line with
  | none => none
  | some (name, code, inline) =>
    let dep := containsSub ("deprecated".data) (lowerL line)
    let joined := joinSp acc
    let comment :=
      match inline with
      | some ic =>
        if ic ≠ [] then
          (if joined ≠ [] then pstrip (joined ++ ' ' :: ic) else ic)
        else joined
      | none => joined
    some { name := name, code := code, comment := pstrip comment, deprecated := dep }

/-- State of the line loop of parse_proto_file. -/
structure ProtoLoopState where
  comment : List (List Char)
  codes : List StatusCode
deriving DecidableEq, Repr

/-- One iteration of the line loop of parse_proto_file. -/
def protoStep (st : ProtoLoopState) (rawLine : List Char) : ProtoLoopState :=
  let line := pstrip rawLine
  if line = [] then { st with comment := [] }
  else
    match process_comment_line line st.comment with
    | some acc2 => { st with comment := acc2 }
    | none =>
      match parse_enum_value line st.comment with
      | some sc => { comment := [], codes := st.codes ++ [sc] }
      | none => st

def parseProtoLines (lines : List (List Char)) : List StatusCode :=
  (lines.foldl protoStep { comment := [], codes := [] }).codes

/-- Head match of the enum-header part of the block regex
(the word enum, a whitespace run, the word ResponseCodeEnum, an optional
whitespace run, then an opening brace); returns the text after the brace. -/
def matchEnumHeader (s : List Char) : Option (List Char) :=
  if ("enum".data).isPrefixOf s then
    let t1 := s.drop 4
    let ws := t1.takeWhile wsChar
    if ws = [] then none
    else
      let t2 := t1.dropWhile wsChar
      if ("ResponseCodeEnum".data).isPrefixOf t2 then
        match (t2.drop 16).dropWhile wsChar with
        | '\x7b' :: rest => some rest
        | _ => none
      else none
  else none

/-- re.search of the enum-block pattern (DOTALL, non-greedy body): the
leftmost position where the header matches and a closing brace follows;
the body group is everything up to that first closing brace. -/
def findEnumBodyGo : Nat → List Char → Option (List Char)
  | _, [] => none
  | 0, _ => none
  | Nat.succ f, c :: cs =>
    match matchEnumHeader (c :: cs) with
    | some rest =>
      if rest.any (fun d => d = '\x7d') then some (rest.takeWhile (fun d => d ≠ '\x7d'))
      else findEnumBodyGo f cs
    | none => findEnumBodyGo f cs

def findEnumBody (content : List Char) : Option (List Char) :=
  findEnumBodyGo content.length content

/-- parse_proto_file of sync_status_codes.py, with the file read modelled
by passing the file content. -/
def parse_proto_file (content : List Char) : List StatusCode :=
  match findEnumBody content with
  | none => []
  | some body => parseProtoLines (splitNl body)

/-! ## Swift-file parsers -/

/-- Head match of the init pattern of parse_swift_status_codes
(the word case, a whitespace run, a digit run, a colon, the word self,
an equals sign, a dot, a word run); returns (code, name, rest after the
match) so that the finditer scan can resume after the match. -/
def matchInitCase (s : List Char) : Option (Nat × List Char × List Char) :=
  if ("case".data).isPrefixOf s then
    let t1 := s.drop 4
    if t1.takeWhile wsChar = [] then none
    else
      let t2 := t1.dropWhile wsChar
      let digits := t2.takeWhile digitChar
      if digits = [] then none
      else
        match t2.dropWhile digitChar with
        | ':' :: t3 =>
          let t4 := t3.dropWhile wsChar
          if ("self".data).isPrefixOf t4 then
            match (t4.drop 4).dropWhile wsChar with
            | '=' :: t5 =>
              match t5.dropWhile wsChar with
              | '.' :: t6 =>
                let name := t6.takeWhile wordChar
                if name = [] then none
                else some (natOfDigits digits, name, t6.dropWhile wordChar)
              | _ => none
            | _ => none
          else none
        | _ => none
  else none

/-- re.finditer scan of the init pattern: non-overlapping matches, left to
right, resuming after each match. -/
def scanInitCases : Nat → List Char → List (Nat × List Char)
  | _, [] => []
  | 0, _ => []
  | Nat.succ f, c :: cs =>
    match matchInitCase (c :: cs) with
    | some (code, name, rest) => (code, name) :: scanInitCases f rest
    | none => scanInitCases f cs

/-- parse_swift_status_codes of sync_status_codes.py: the code-to-name
dict, with a later binding of the same code overwriting an earlier one.
The dict is modelled as an association list whose first hit is the most
recent binding (List.lookup finds the latest write). -/
def parse_swift_status_codes (content : List Char) : List (Nat × List Char) :=
  (scanInitCases content.length content).foldl
    (fun m kv => kv :: m) []

/-- Head match of the case pattern of parse_swift_comments
(a whitespace run, the word case, a whitespace run, a word run, a line
comment marker, an equals sign and a digit run; a prefix match, so any
tail is allowed); returns (name, code). -/
def matchCasePat (line : List Char) : Option (List Char × Nat) :=
  let s := line.dropWhile wsChar
  if ("case".data).isPrefixOf s then
    let t1 := s.drop 4
    if t1.takeWhile wsChar = [] then none
    else
      let t2 := t1.dropWhile wsChar
      let name := t2.takeWhile wordChar
      if name = [] then none
      else
        match (t2.dropWhile wordChar).dropWhile wsChar with
        | '/' :: '/' :: t3 =>
          match t3.dropWhile wsChar with
          | '=' :: t4 =>
            let t5 := t4.dropWhile wsChar
            let digits := t5.takeWhile digitChar
            if digits = [] then none else some (name, natOfDigits digits)
          | _ => none
        | _ => none
  else none

def lineAt (lines : List (List Char)) (j : Nat) : List Char :=
  lines.getD j []

/-- The backward walk of parse_swift_comments collecting the contiguous
doc-comment lines right above line i.  The countdown argument is j + 1
where j is the next index to inspect; returns (comment texts in line
order, start line of the declaration). -/
def walkBackGo (lines : List (List Char)) : Nat → List (List Char) → Nat →
    List (List Char) × Nat
  | 0, accLines, start => (accLines, start)
  | Nat.succ j, accLines, start =>
    let prev := pstrip (lineAt lines j)
    if ("///".data).isPrefixOf prev then
      walkBackGo lines j (pstrip (prev.drop 3) :: accLines) j
    else (accLines, start)

def walkBack (lines : List (List Char)) (i : Nat) : List (List Char) × Nat :=
  walkBackGo lines i [] i

/-- The SwiftStatusCode built at case line i of parse_swift_comments. -/
def swiftCodeAt (lines : List (List Char)) (i : Nat) (name : List Char)
    (code : Nat) : SwiftStatusCode :=
  let w := walkBack lines i
  let full := joinSp w.1
  let dep := ("[Deprecated]".data).isPrefixOf full
  let clean := if dep then pstrip (full.drop 12) else full
  { swift_name := name, code := code, comment := clean, deprecated := dep,
    line_start := w.2, line_end := i }

/-- parse_swift_comments of sync_status_codes.py over the line list of the
file content; the dict is again an association list whose first hit is the
most recent binding. -/
def parseSwiftCommentsLines (lines : List (List Char)) :
    List (Nat × SwiftStatusCode) :=
  (List.range lines.length).foldl
    (fun m i =>
      match matchCasePat (lineAt lines i) with
      | some (name, code) => (code, swiftCodeAt lines i name code) :: m
      | none => m) []

def parse_swift_comments (content : List Char) : List (Nat × SwiftStatusCode) :=
  parseSwiftCommentsLines (splitNl content)

/-! ## Diff engine -/

/-- find_missing_codes of sync_status_codes.py: proto codes whose number
is absent from the code-to-name dict, sorted ascending by number (Python
sorted with an integer key; insertion sort is a stable sort just like
Python's). -/
def find_missing_codes (proto_codes : List StatusCode)
    (swift_codes : List (Nat × List Char)) : List StatusCode :=
  List.insertionSort (fun a b => a.code ≤ b.code)
    (proto_codes.filter (fun pc => (swift_codes.lookup pc.code).isNone))

/-- find_comment_updates of sync_status_codes.py: proto codes present in
the comment dict whose stripped comment or deprecated flag differs. -/
def find_comment_updates (proto_codes : List StatusCode)
    (swift_comments : List (Nat × SwiftStatusCode)) :
    List (StatusCode × SwiftStatusCode) :=
  proto_codes.filterMap (fun pc =>
    match swift_comments.lookup pc.code with
    | none => none
    | some sw =>
      if pstrip pc.comment ≠ pstrip sw.comment ∨ pc.deprecated ≠ sw.deprecated
      then some (pc, sw) else none)

/-! ## Case converter and code generators -/

/-- ACRONYM_MAPPINGS of sync_status_codes.py. -/
def ACRONYM_MAPPINGS : List (List Char × List Char) :=
  [("ID".data, "ID".data), ("IPV4".data, "Ipv4".data),
   ("FQDN".data, "Fqdn".data), ("NFT".data, "Nft".data),
   ("KYC".data, "Kyc".data), ("GRPC".data, "Grpc".data),
   ("LCM".data, "Lcm".data)]

/-- proto_to_swift_case of sync_status_codes.py over character lists. -/
def protoToSwiftCaseL (name : List Char) : List Char :=
  if name = "OK".data then "ok".data
  else
    match splitOnChar '_' name with
    | [] => []
    | p :: ps =>
      lowerL p ++
        (ps.map (fun q => ((ACRONYM_MAPPINGS.lookup q).getD (capitalizeL q)))).flatten

/-- proto_to_swift_case over Strings (the Python function's signature). -/
def proto_to_swift_case (s : String) : String :=
  String.mk (protoToSwiftCaseL s.data)

/-- generate_case_declaration of sync_status_codes.py. -/
def generate_case_declaration (st : StatusCode) : List Char :=
  let caseLine :=
    "    case ".data ++ protoToSwiftCaseL st.name ++ "  // = ".data ++
      natDigits st.code
  if st.comment ≠ [] then
    ("    /// ".data ++
      (if st.deprecated then "[Deprecated] ".data ++ st.comment else st.comment))
      ++ '\n' :: caseLine
  else if st.deprecated then
    "    /// [Deprecated]".data ++ '\n' :: caseLine
  else caseLine

/-- generate_init_case of sync_status_codes.py. -/
def generate_init_case (st : StatusCode) : List Char :=
  "        case ".data ++ natDigits st.code ++ ": self = .".data ++
    protoToSwiftCaseL st.name

/-- generate_raw_value_case of sync_status_codes.py. -/
def generate_raw_value_case (st : StatusCode) : List Char :=
  "        case .".data ++ protoToSwiftCaseL st.name ++ ": return ".data ++
    natDigits st.code

/-- generate_all_cases_entry of sync_status_codes.py. -/
def generate_all_cases_entry (st : StatusCode) : List Char :=
  "        .".data ++ protoToSwiftCaseL st.name ++ ",".data

/-- generate_name_map_entry of sync_status_codes.py. -/
def generate_name_map_entry (st : StatusCode) : List Char :=
  "            ".data ++ natDigits st.code ++ ": \"".data ++ st.name ++
    "\",".data

/-! ## Splicer -/

def warnFor (sectionName : String) : String :=
  "Warning: Could not find insertion point for " ++ sectionName

/-- _insert_before_marker of sync_status_codes.py: Python str.replace
replaces every occurrence of the marker; the second component is the
warning printed when the marker is absent. -/
def insert_before_marker (content marker newContent : List Char)
    (sectionName : String) : List Char × Option String :=
  if containsSub marker content then
    (repAll marker (newContent ++ '\n' :: marker) content, none)
  else (content, some (warnFor sectionName))

/-- _insert_before_pattern of sync_status_codes.py.  The two regex
patterns passed to it contain no unescaped metacharacter apart from the
group parentheses, so a search for the pattern is a search for the
literal text it denotes, and group 0 is that literal; the replacement
then substitutes newContent ++ suffix for every occurrence of the
literal (Python str.replace again). -/
def insert_before_pattern (content patLit newContent suffix : List Char)
    (sectionName : String) : List Char × Option String :=
  if containsSub patLit content then
    (repAll patLit (newContent ++ suffix) content, none)
  else (content, some (warnFor sectionName))

/-- The marker of section 1 (case declarations). -/
def caseMarker : List Char :=
  "    /// swift-format-ignore: AlwaysUseLowerCamelCase\n    case unrecognized(Int32)".data

/-- The marker of section 2 (init cases). -/
def initMarker : List Char :=
  "        default: self = .unrecognized(rawValue)".data

/-- The marker of section 3 (rawValue cases). -/
def rawValueMarker : List Char :=
  "        case .unrecognized(let i): return i".data

/-- The literal denoted by the regex of section 4 (allCases entries). -/
def allCasesLit : List Char :=
  "    ]\n\x7d\n\n// minimal edit from proto-generated file:".data

def allCasesSuffix : List Char :=
  "\n    ]\n\x7d\n\n// minimal edit from proto-generated file:".data

/-- The literal denoted by the regex of section 5 (nameMap entries). -/
def nameMapLit : List Char :=
  "        ]\n\x7d\n\nextension Status: Sendable".data

def nameMapSuffix : List Char :=
  "\n        ]\n\x7d\n\nextension Status: Sendable".data

/-- _apply_swift_updates of sync_status_codes.py (verbose prints omitted);
returns the new content and the list of warnings printed. -/
def apply_swift_updates (content : List Char) (missing : List StatusCode) :
    List Char × List String :=
  let decls := joinWith "\n\n".data (missing.map generate_case_declaration)
  let s1 := insert_before_marker content caseMarker (decls ++ ['\n'])
    "case declarations"
  let inits := joinNl (missing.map generate_init_case)
  let s2 := insert_before_marker s1.1 initMarker inits "init cases"
  let raws := joinNl (missing.map generate_raw_value_case)
  let s3 := insert_before_marker s2.1 rawValueMarker raws "rawValue cases"
  let alls := joinNl (missing.map generate_all_cases_entry)
  let s4 := insert_before_pattern s3.1 allCasesLit alls allCasesSuffix
    "allCases entries"
  let maps := joinNl (missing.map generate_name_map_entry)
  let s5 := insert_before_pattern s4.1 nameMapLit maps nameMapSuffix
    "nameMap entries"
  (s5.1, [s1.2, s2.2, s3.2, s4.2, s5.2].filterMap id)

/-- The replacement doc comment built inside _apply_comment_updates. -/
def newCommentFor (p : StatusCode) : Option (List Char) :=
  if p.comment ≠ [] then
    if p.deprecated then some ("    /// [Deprecated] ".data ++ p.comment)
    else some ("    /// ".data ++ p.comment)
  else if p.deprecated then some ("    /// [Deprecated]".data)
  else none

/-- Python list.insert(i, x): insert before index i, clamping at the end. -/
def pyInsertAt (i : Nat) (x : α) (l : List α) : List α :=
  l.take i ++ x :: l.drop i

/-- The body of the update loop of _apply_comment_updates for a single
(proto, swift) pair: delete the old comment lines, insert the new one. -/
def applyOneCommentUpdate (lines : List (List Char))
    (u : StatusCode × SwiftStatusCode) : List (List Char) :=
  let newC := newCommentFor u.1
  if u.2.line_start < u.2.line_end then
    let ls := lines.take u.2.line_start ++ lines.drop u.2.line_end
    match newC with
    | some c => pyInsertAt u.2.line_start c ls
    | none => ls
  else
    match newC with
    | some c => pyInsertAt u.2.line_end c lines
    | none => lines

/-- The descending sort by line_start of _apply_comment_updates (Python
sorted with reverse=True; stable, like insertion sort). -/
def sortUpdatesDesc (updates : List (StatusCode × SwiftStatusCode)) :
    List (StatusCode × SwiftStatusCode) :=
  List.insertionSort (fun x y => y.2.line_start ≤ x.2.line_start) updates

/-- _apply_comment_updates of sync_status_codes.py. -/
def apply_comment_updates (content : List Char)
    (updates : List (StatusCode × SwiftStatusCode)) : List Char :=
  joinNl ((sortUpdatesDesc updates).foldl applyOneCommentUpdate (splitNl content))

/-! ## Safe writer, update driver and main -/

/-- The file system: an association list from path to content whose first
hit is the most recent write. -/
abbrev FS : Type := List (String × List Char)

def fsGet (fs : FS) (p : String) : Option (List Char) := List.lookup p fs

def fsSet (fs : FS) (p : String) (v : List Char) : FS := (p, v) :: fs

def fsRemove (fs : FS) (p : String) : FS :=
  fs.filter (fun e => e.1 ≠ p)

/-- Outcome oracle of the destination write: ok says whether the write
raises, leftover the bytes left in the destination when it does (the
write opened the file with truncation before failing). -/
structure WriteOutcome where
  ok : Bool
  leftover : List Char
deriving Repr

structure UpdResult where
  ok : Bool
  fs : FS
  log : List String
deriving DecidableEq, Repr

/-- _write_file_with_backup of sync_status_codes.py; none models an
unhandled exception (the destination missing when the backup copy is
attempted, which main rules out). -/
def write_file_with_backup (fs : FS) (path : String) (content : List Char)
    (w : WriteOutcome) : Option UpdResult :=
  match fsGet fs path with
  | none => none
  | some orig =>
    let bak := path ++ ".bak"
    let fs1 := fsSet fs bak orig
    if w.ok then
      some { ok := true, fs := fsRemove (fsSet fs1 path content) bak, log := [] }
    else
      some { ok := false,
             fs := fsRemove (fsSet (fsSet fs1 path w.leftover) path orig) bak,
             log := ["Error writing file", "Restoring from backup..."] }

/-- The content update_swift_file computes before deciding whether to
write it: comment updates applied to the original text first, then the
five swift-section insertions; also returns the insertion warnings. -/
def newSwiftContent (content : List Char) (missing : List StatusCode)
    (updates : List (StatusCode × SwiftStatusCode)) : List Char × List String :=
  let c1 := if updates.isEmpty then content else apply_comment_updates content updates
  if missing.isEmpty then (c1, []) else apply_swift_updates c1 missing

/-- update_swift_file of sync_status_codes.py; none again models an
unhandled exception when the swift file cannot be read. -/
def update_swift_file (fs : FS) (path : String) (missing : List StatusCode)
    (updates : List (StatusCode × SwiftStatusCode)) (dryRun : Bool)
    (w : WriteOutcome) : Option UpdResult :=
  if missing.isEmpty && updates.isEmpty then
    some { ok := true, fs := fs, log := ["No updates needed."] }
  else
    match fsGet fs path with
    | none => none
    | some content =>
      let nc := newSwiftContent content missing updates
      if dryRun then
        some { ok := true, fs := fs,
               log := nc.2 ++ ["[DRY RUN] Would update Status.swift with the following changes:"] }
      else
        match write_file_with_backup fs path nc.1 w with
        | none => none
        | some r => some { r with log := nc.2 ++ r.log }

/-- The missing-code list a run computes from the two file contents. -/
def runMissing (p s : List Char) : List StatusCode :=
  find_missing_codes (parse_proto_file p) (parse_swift_status_codes s)

/-- The comment-update list a run computes from the two file contents. -/
def runUpdates (p s : List Char) : List (StatusCode × SwiftStatusCode) :=
  find_comment_updates (parse_proto_file p) (parse_swift_comments s)

structure RunResult where
  exitCode : Nat
  fs : FS
  log : List String
deriving DecidableEq, Repr

/-- main of sync_status_codes.py: existence checks, the two parses, the
diff, the update call and the exit codes; an unhandled exception also
terminates the interpreter with a non-zero code, modelled as exit 1. -/
def mainRun (fs : FS) (protoPath swiftPath : String) (dryRun : Bool)
    (w : WriteOutcome) : RunResult :=
  match fsGet fs protoPath with
  | none => { exitCode := 1, fs := fs, log := ["Error: Proto file not found"] }
  | some pc =>
    match fsGet fs swiftPath with
    | none => { exitCode := 1, fs := fs, log := ["Error: Swift file not found"] }
    | some sc =>
      let missing := runMissing pc sc
      let updates := runUpdates pc sc
      if missing.isEmpty && updates.isEmpty then
        { exitCode := 0, fs := fs,
          log := ["Status.swift is in sync with response_code.proto", "No updates needed."] }
      else
        match update_swift_file fs swiftPath missing updates dryRun w with
        | none => { exitCode := 1, fs := fs, log := ["unhandled exception"] }
        | some r =>
          if r.ok then { exitCode := 0, fs := r.fs, log := r.log }
          else { exitCode := 1, fs := r.fs,
                 log := r.log ++ ["Failed to update Status.swift"] }

/-- The content a successful non-dry run leaves in the swift file. -/
def syncContent (p s : List Char) : List Char :=
  (newSwiftContent s (runMissing p s) (runUpdates p s)).1

/-! ## File-system lemmas -/

theorem fsGet_fsSet_same (fs : FS) (p : String) (v : List Char) :
    fsGet (fsSet fs p v) p = some v := by
  simp [fsGet, fsSet, List.lookup]

theorem fsGet_fsSet_ne (fs : FS) (p q : String) (v : List Char) (h : p ≠ q) :
    fsGet (fsSet fs q v) p = fsGet fs p := by
  simp [fsGet, fsSet, List.lookup, beq_eq_false_iff_ne.mpr h]

theorem fsGet_fsRemove_same (fs : FS) (p : String) :
    fsGet (fsRemove fs p) p = none := by
  induction fs with
  | nil => rfl
  | cons e es ih =>
    obtain ⟨k, v⟩ := e
    by_cases h : k = p
    · simpa [fsRemove, List.filter, h] using ih
    · simpa [fsGet, fsRemove, List.filter, h, List.lookup,
        beq_eq_false_iff_ne.mpr (Ne.symm h)] using ih

theorem fsGet_fsRemove_ne (fs : FS) (p q : String) (h : p ≠ q) :
    fsGet (fsRemove fs q) p = fsGet fs p := by
  induction fs with
  | nil => rfl
  | cons e es ih =>
    obtain ⟨k, v⟩ := e
    by_cases h1 : k = q
    · have h2 : (p == k) = false := by
        rw [beq_eq_false_iff_ne]
        exact fun hq => h (hq.trans h1)
      simp only [fsRemove, List.filter, h1] at *
      simpa [fsGet, List.lookup, h2] using ih
    · simp only [fsRemove, List.filter] at *
      by_cases h2 : p = k
      · simp [fsGet, List.lookup, h2, h1, beq_self_eq_true]
      · simpa [fsGet, List.lookup, h1, beq_eq_false_iff_ne.mpr h2] using ih

theorem path_ne_bak (p : String) : p ≠ p ++ ".bak" := by
  intro h
  have h2 := congrArg String.length h
  rw [String.length_append] at h2
  have h3 : String.length ".bak" = 4 := rfl
  omega

/-! ## Claim C5 -/

/-- C5: proto_to_swift_case (a total Lean function, hence pure,
deterministic and total by construction) maps OK to ok,
INVALID_TRANSACTION to invalidTransaction, INVALID_FILE_ID to
invalidFileID and INSUFFICIENT_TX_FEE to insufficientTxFee. -/
theorem c5_proto_to_swift_case_examples :
    proto_to_swift_case "OK" = "ok" ∧
    proto_to_swift_case "INVALID_TRANSACTION" = "invalidTransaction" ∧
    proto_to_swift_case "INVALID_FILE_ID" = "invalidFileID" ∧
    proto_to_swift_case "INSUFFICIENT_TX_FEE" = "insufficientTxFee" := by
  refine ⟨?_, ?_, ?_, ?_⟩ <;> decide

/-! ## Claim C4 -/

/-- C4: find_missing_codes returns exactly the proto codes whose number is
absent from the existing code-to-name mapping (a permutation of that
filter), sorted ascending by numeric code; and on protocol codes
numbered 1, 2, 3 with existing set containing 2 it returns the codes
numbered 1 and 3 in that order. -/
theorem c4_find_missing_codes :
    (∀ (ps : List StatusCode) (m : List (Nat × List Char)),
      List.Sorted (fun a b : StatusCode => a.code ≤ b.code)
        (find_missing_codes ps m) ∧
      List.Perm (find_missing_codes ps m)
        (ps.filter (fun pc => (m.lookup pc.code).isNone))) ∧
    find_missing_codes
      [{ name := "A".data, code := 1, comment := [], deprecated := false },
       { name := "B".data, code := 2, comment := [], deprecated := false },
       { name := "C".data, code := 3, comment := [], deprecated := false }]
      [(2, "b".data)] =
      [{ name := "A".data, code := 1, comment := [], deprecated := false },
       { name := "C".data, code := 3, comment := [], deprecated := false }] := by
  constructor
  · intro ps m
    haveI ht : IsTotal StatusCode (fun a b => a.code ≤ b.code) :=
      ⟨fun a b => Nat.le_total a.code b.code⟩
    haveI htr : IsTrans StatusCode (fun a b => a.code ≤ b.code) :=
      ⟨fun a b c hab hbc => Nat.le_trans hab hbc⟩
    exact ⟨List.sorted_insertionSort _ _, List.perm_insertionSort _ _⟩
  · decide

/-! ## Claim C3 -/

/-- C3: in dry-run mode update_swift_file returns success and leaves the
file system untouched (no write, no backup), for every list of missing
codes and comment updates, whenever the swift file is readable. -/
theorem c3_dry_run_never_writes (fs : FS) (path : String)
    (missing : List StatusCode) (updates : List (StatusCode × SwiftStatusCode))
    (w : WriteOutcome) (h : (fsGet fs path).isSome = true) :
    ∃ log, update_swift_file fs path missing updates true w =
      some { ok := true, fs := fs, log := log } := by
  obtain ⟨content, hc⟩ := Option.isSome_iff_exists.mp h
  by_cases he : (missing.isEmpty && updates.isEmpty) = true
  · exact ⟨["No updates needed."], by simp [update_swift_file, he]⟩
  · rw [Bool.not_eq_true] at he
    exact ⟨(newSwiftContent content missing updates).2 ++
        ["[DRY RUN] Would update Status.swift with the following changes:"],
      by simp [update_swift_file, he, hc]⟩

/-- Witness for C3 at a concrete file system with one missing code and
one pending comment update. -/
theorem c3_witness :
    ∃ log, update_swift_file [("Status.swift", "abc".data)] "Status.swift"
      [{ name := "A".data, code := 1, comment := [], deprecated := false }]
      [({ name := "A".data, code := 1, comment := "x".data, deprecated := false },
        { swift_name := "a".data, code := 1, comment := "y".data,
          deprecated := false, line_start := 0, line_end := 0 })]
      true { ok := false, leftover := [] } =
      some { ok := true, fs := [("Status.swift", "abc".data)], log := log } :=
  c3_dry_run_never_writes _ "Status.swift" _ _ _ (by decide)

/-! ## Claim C2 -/

/-- C2: if the destination write fails after the backup copy was created,
the destination's final on-disk bytes equal its pre-run bytes, the backup
file is deleted, the failure is reported and the process exits with
code 1; with a succeeding write the process exits with code 0 (also when
the files are already in sync, in which case nothing is written); a
missing input file exits with code 1. -/
theorem c2_restore_and_exit_codes :
    (∀ (fs : FS) (pp sp : String) (pc orig leftover : List Char),
      fsGet fs pp = some pc → fsGet fs sp = some orig →
      ((runMissing pc orig).isEmpty && (runUpdates pc orig).isEmpty) = false →
      (mainRun fs pp sp false { ok := false, leftover := leftover }).exitCode = 1 ∧
      fsGet (mainRun fs pp sp false { ok := false, leftover := leftover }).fs sp =
        some orig ∧
      fsGet (mainRun fs pp sp false { ok := false, leftover := leftover }).fs
        (sp ++ ".bak") = none ∧
      "Restoring from backup..." ∈
        (mainRun fs pp sp false { ok := false, leftover := leftover }).log) ∧
    (∀ (fs : FS) (pp sp : String) (pc orig : List Char),
      fsGet fs pp = some pc → fsGet fs sp = some orig →
      (mainRun fs pp sp false { ok := true, leftover := [] }).exitCode = 0) ∧
    (∀ (fs : FS) (pp sp : String) (w : WriteOutcome),
      fsGet fs pp = none →
      (mainRun fs pp sp false w).exitCode = 1) ∧
    (∀ (fs : FS) (pp sp : String) (pc : List Char) (w : WriteOutcome),
      fsGet fs pp = some pc → fsGet fs sp = none →
      (mainRun fs pp sp false w).exitCode = 1) := by
  refine ⟨?_, ?_, ?_, ?_⟩
  · intro fs pp sp pc orig leftover hp hs hne
    simp only [mainRun, hp, hs, hne, update_swift_file, write_file_with_backup,
      Bool.false_eq_true, if_false, if_neg, cond_false]
    simp only [fsGet_fsRemove_ne _ _ _ (path_ne_bak sp), fsGet_fsSet_same,
      fsGet_fsRemove_same]
    simp
  · intro fs pp sp pc orig hp hs
    by_cases he : ((runMissing pc orig).isEmpty && (runUpdates pc orig).isEmpty) = true
    · simp [mainRun, hp, hs, he]
    · rw [Bool.not_eq_true] at he
      simp [mainRun, hp, hs, he, update_swift_file, write_file_with_backup]
  · intro fs pp sp w hp
    simp [mainRun, hp]
  · intro fs pp sp pc w hp hs
    simp [mainRun, hp, hs]

/-- Witness for C2 at a concrete file system: the proto file holds one
enum value, the swift file is empty (so a write is attempted), and the
write is made to fail leaving garbage bytes behind. -/
theorem c2_witness :
    (fsGet [("p", "enum ResponseCodeEnum \x7bA = 1;\x7d".data), ("s", [])] "p" =
      some ("enum ResponseCodeEnum \x7bA = 1;\x7d".data)) ∧
    (fsGet [("p", "enum ResponseCodeEnum \x7bA = 1;\x7d".data), ("s", [])] "s" =
      some []) ∧
    ((runMissing ("enum ResponseCodeEnum \x7bA = 1;\x7d".data) []).isEmpty &&
      (runUpdates ("enum ResponseCodeEnum \x7bA = 1;\x7d".data) []).isEmpty) = false ∧
    (mainRun [("p", "enum ResponseCodeEnum \x7bA = 1;\x7d".data), ("s", [])]
      "p" "s" false { ok := false, leftover := "junk".data }).exitCode = 1 ∧
    fsGet (mainRun [("p", "enum ResponseCodeEnum \x7bA = 1;\x7d".data), ("s", [])]
      "p" "s" false { ok := false, leftover := "junk".data }).fs "s" = some [] ∧
    fsGet (mainRun [("p", "enum ResponseCodeEnum \x7bA = 1;\x7d".data), ("s", [])]
      "p" "s" false { ok := false, leftover := "junk".data }).fs "s.bak" = none ∧
    (mainRun [("p", "enum ResponseCodeEnum \x7bA = 1;\x7d".data), ("s", [])]
      "p" "s" false { ok := true, leftover := [] }).exitCode = 0 := by
  have h1 := c2_restore_and_exit_codes.1
    [("p", "enum ResponseCodeEnum \x7bA = 1;\x7d".data), ("s", [])] "p" "s"
    ("enum ResponseCodeEnum \x7bA = 1;\x7d".data) [] ("junk".data)
    (by decide) (by decide) (by decide)
  have h2 := c2_restore_and_exit_codes.2.1
    [("p", "enum ResponseCodeEnum \x7bA = 1;\x7d".data), ("s", [])] "p" "s"
    ("enum ResponseCodeEnum \x7bA = 1;\x7d".data) [] (by decide) (by decide)
  exact ⟨by decide, by decide, by decide, h1.1, h1.2.1, h1.2.2.1, h2⟩

/-! ## Claim C9 -/

/-- C9: when both missing codes and comment updates are present,
update_swift_file's content computation applies the comment updates to
the original text first and only then the five marker/pattern insertions;
and the comment-update pass folds over a permutation of the updates that
is sorted by descending starting line index. -/
theorem c9_update_order :
    (∀ (content : List Char) (missing : List StatusCode)
       (updates : List (StatusCode × SwiftStatusCode)),
      missing ≠ [] → updates ≠ [] →
      newSwiftContent content missing updates =
        apply_swift_updates (apply_comment_updates content updates) missing) ∧
    (∀ updates : List (StatusCode × SwiftStatusCode),
      List.Sorted
        (fun x y : StatusCode × SwiftStatusCode => y.2.line_start ≤ x.2.line_start)
        (sortUpdatesDesc updates) ∧
      List.Perm (sortUpdatesDesc updates) updates) := by
  constructor
  · intro content missing updates hm hu
    have hm2 : missing.isEmpty = false := by
      cases missing with
      | nil => exact absurd rfl hm
      | cons a l => rfl
    have hu2 : updates.isEmpty = false := by
      cases updates with
      | nil => exact absurd rfl hu
      | cons a l => rfl
    simp [newSwiftContent, hm2, hu2]
  · intro updates
    haveI ht : IsTotal (StatusCode × SwiftStatusCode)
        (fun x y => y.2.line_start ≤ x.2.line_start) :=
      ⟨fun a b => Nat.le_total b.2.line_start a.2.line_start⟩
    haveI htr : IsTrans (StatusCode × SwiftStatusCode)
        (fun x y => y.2.line_start ≤ x.2.line_start) :=
      ⟨fun a b c hab hbc => Nat.le_trans hbc hab⟩
    exact ⟨List.sorted_insertionSort _ _, List.perm_insertionSort _ _⟩

/-- Witness for C9 at a singleton missing-code list and a singleton
update list. -/
theorem c9_witness :
    ([{ name := "A".data, code := 1, comment := [], deprecated := false }] ≠
      ([] : List StatusCode)) ∧
    ([({ name := "A".data, code := 1, comment := "x".data, deprecated := false },
       { swift_name := "a".data, code := 1, comment := "y".data,
         deprecated := false, line_start := 0, line_end := 0 })] ≠
      ([] : List (StatusCode × SwiftStatusCode))) ∧
    newSwiftContent ("    case a  // = 1\n".data)
      [{ name := "A".data, code := 1, comment := [], deprecated := false }]
      [({ name := "A".data, code := 1, comment := "x".data, deprecated := false },
        { swift_name := "a".data, code := 1, comment := "y".data,
          deprecated := false, line_start := 0, line_end := 0 })] =
      apply_swift_updates
        (apply_comment_updates ("    case a  // = 1\n".data)
          [({ name := "A".data, code := 1, comment := "x".data, deprecated := false },
            { swift_name := "a".data, code := 1, comment := "y".data,
              deprecated := false, line_start := 0, line_end := 0 })])
        [{ name := "A".data, code := 1, comment := [], deprecated := false }] :=
  ⟨by decide, by decide,
    c9_update_order.1 _ _ _ (by decide) (by decide)⟩

/-! ## Claim C10 -/

/-- The replacement comment built by _apply_comment_updates is always a
doc-comment line. -/
theorem newCommentFor_prefix (p : StatusCode) (c : List Char)
    (hc : newCommentFor p = some c) : ("    ///".data) <+: c := by
  unfold newCommentFor at hc
  by_cases h1 : p.comment ≠ []
  · rw [if_pos h1] at hc
    by_cases h2 : p.deprecated = true
    · rw [if_pos h2] at hc
      simp only [Option.some.injEq] at hc
      subst hc
      refine ⟨" [Deprecated] ".data ++ p.comment, ?_⟩
      rw [← List.append_assoc]
      rfl
    · rw [if_neg h2] at hc
      simp only [Option.some.injEq] at hc
      subst hc
      exact ⟨' ' :: p.comment, rfl⟩
  · rw [if_neg h1] at hc
    by_cases h2 : p.deprecated = true
    · rw [if_pos h2] at hc
      simp only [Option.some.injEq] at hc
      subst hc
      exact ⟨" [Deprecated]".data, rfl⟩
    · rw [if_neg h2] at hc
      exact absurd hc (by simp)

/-- C10: a single comment update touches only the declaration's recorded
line range: the result is the original lines before line_start, then at
most one new doc-comment line, then the original lines from the case line
(line_end) on, so the case line and everything outside the range are
unchanged. -/
theorem c10_comment_update_frame (lines : List (List Char))
    (u : StatusCode × SwiftStatusCode)
    (h1 : u.2.line_start ≤ u.2.line_end) (h2 : u.2.line_end ≤ lines.length) :
    ∃ ins : List (List Char),
      applyOneCommentUpdate lines u =
        lines.take u.2.line_start ++ ins ++ lines.drop u.2.line_end ∧
      ins.length ≤ 1 ∧
      ∀ c ∈ ins, ("    ///".data) <+: c := by
  have htl : (lines.take u.2.line_start).length = u.2.line_start := by
    rw [List.length_take]
    omega
  rcases Nat.lt_or_ge u.2.line_start u.2.line_end with hlt | hge
  · unfold applyOneCommentUpdate
    rw [if_pos hlt]
    cases hnc : newCommentFor u.1 with
    | none =>
      refine ⟨[], by simp, by simp, by simp⟩
    | some c =>
      refine ⟨[c], ?_, by simp, ?_⟩
      · show pyInsertAt u.2.line_start c
          (lines.take u.2.line_start ++ lines.drop u.2.line_end) = _
        unfold pyInsertAt
        rw [List.take_left' htl, List.drop_left' htl]
        simp
      · intro d hd
        rw [List.mem_singleton] at hd
        rw [hd]
        exact newCommentFor_prefix u.1 c hnc
  · have heq : u.2.line_start = u.2.line_end := by omega
    unfold applyOneCommentUpdate
    rw [if_neg (by omega)]
    cases hnc : newCommentFor u.1 with
    | none =>
      refine ⟨[], ?_, by simp, by simp⟩
      rw [heq]
      simp [List.take_append_drop]
    | some c =>
      refine ⟨[c], ?_, by simp, ?_⟩
      · unfold pyInsertAt
        rw [heq]
        simp
      · intro d hd
        rw [List.mem_singleton] at hd
        rw [hd]
        exact newCommentFor_prefix u.1 c hnc

/-! ## Claim C1 -/

/-- A protocol file with three enum values, one of them deprecated. -/
def c1Proto : String :=
  "enum ResponseCodeEnum \x7b\n  /**\n   * The request passed.\n   */\n  OK = 0;\n\n  /**\n   * Something failed.\n   */\n  FAILED = 7;\n\n  /**\n   * Old thing.\n   */\n  GONE = 9 [deprecated = true];\n\x7d\n"

/-- A hand-written source containing all five structural anchors, one
existing code (0) with a drifted comment, and missing codes 7 and 9. -/
def c1Swift : String :=
  "    /// Old comment\n    case ok  // = 0\n\n    /// swift-format-ignore: AlwaysUseLowerCamelCase\n    case unrecognized(Int32)\n\n        case 0: self = .ok\n        default: self = .unrecognized(rawValue)\n\n        case .ok: return 0\n        case .unrecognized(let i): return i\n\n        .ok,\n    ]\n\x7d\n\n// minimal edit from proto-generated file:\n        0: \"OK\",\n        ]\n\x7d\n\nextension Status: Sendable\n"

/-- A hand-written source containing none of the five anchors. -/
def c1NoAnchors : String := "// nothing here\n"

/-- C1 counterexample: on a hand-written source missing the anchors, the
synchronization run succeeds (exit 0) and rewrites the source file (with
every insertion skipped), yet the second run over the rewritten source
still reports the same three missing codes, refuting idempotence of the
overall sync operation as universally stated. -/
theorem c1_counterexample :
    (runMissing c1Proto.data c1NoAnchors.data).length = 3 ∧
    (mainRun [("proto", c1Proto.data), ("swift", c1NoAnchors.data)]
      "proto" "swift" false { ok := true, leftover := [] }).exitCode = 0 ∧
    fsGet (mainRun [("proto", c1Proto.data), ("swift", c1NoAnchors.data)]
      "proto" "swift" false { ok := true, leftover := [] }).fs "swift" =
      some (syncContent c1Proto.data c1NoAnchors.data) ∧
    (runMissing c1Proto.data
      (syncContent c1Proto.data c1NoAnchors.data)).length = 3 := by
  refine ⟨by decide, by decide, by decide, by decide⟩

/-- C1 amended: on a pair whose hand-written source carries the five
anchors (here additionally exercising a drifted comment, a plain missing
code and a deprecated missing code), the run succeeds, rewrites the
source, and the second run over the rewritten source and the same proto
file finds zero missing codes and zero comment/deprecated updates. -/
theorem c1_idempotence_with_anchors :
    (runMissing c1Proto.data c1Swift.data).length = 2 ∧
    (runUpdates c1Proto.data c1Swift.data).length = 1 ∧
    (mainRun [("proto", c1Proto.data), ("swift", c1Swift.data)]
      "proto" "swift" false { ok := true, leftover := [] }).exitCode = 0 ∧
    fsGet (mainRun [("proto", c1Proto.data), ("swift", c1Swift.data)]
      "proto" "swift" false { ok := true, leftover := [] }).fs "swift" =
      some (syncContent c1Proto.data c1Swift.data) ∧
    runMissing c1Proto.data (syncContent c1Proto.data c1Swift.data) = [] ∧
    runUpdates c1Proto.data (syncContent c1Proto.data c1Swift.data) = [] := by
  refine ⟨by decide, by decide, by decide, by decide, by decide, by decide⟩

/-! ## Claim C6 -/

theorem dropWhile_self (p : α → Bool) (l : List α) :
    (l.dropWhile p).dropWhile p = l.dropWhile p := by
  induction l with
  | nil => rfl
  | cons c cs ih =>
    cases hp : p c
    · simp [List.dropWhile_cons, hp]
    · simp [List.dropWhile_cons, hp, ih]

theorem dropWhile_eq_self_of_head (p : α → Bool) (l : List α)
    (h : ∀ c, l.head? = some c → p c = false) : l.dropWhile p = l := by
  cases l with
  | nil => rfl
  | cons c cs => simp [List.dropWhile_cons, h c rfl]

/-- Python str.strip is idempotent. -/
theorem pstrip_idem (l : List Char) : pstrip (pstrip l) = pstrip l := by
  unfold pstrip
  set A := l.dropWhile wsChar with hA
  set B := A.reverse.dropWhile wsChar with hB
  have h1 : B.reverse.dropWhile wsChar = B.reverse := by
    apply dropWhile_eq_self_of_head
    intro c hc
    rw [List.head?_reverse] at hc
    obtain ⟨t, ht⟩ := List.dropWhile_suffix (l := A.reverse) wsChar
    rw [← hB] at ht
    have h2 : A.reverse.getLast? = some c := by
      rw [← ht, List.getLast?_append, hc]
      rfl
    rw [List.getLast?_reverse] at h2
    have h3 := List.head?_dropWhile_not wsChar l
    rw [← hA, h2] at h3
    exact h3
  rw [h1, List.reverse_reverse, hB, dropWhile_self]

def c6Proto : String :=
  "enum ResponseCodeEnum \x7b\n  /**\n   * First part.\n   * Second part.\n   */\n  ALPHA = 1; // inline note\n\n  /// stale comment\n\n  BETA = 2;\n\x7d\n"

/-- C6: a blank line inside the enum block clears the pending-comment
accumulator (and changes nothing else); an enum-value line with a
non-empty inline comment and a non-empty accumulator yields a comment
equal to the stripped space-join of the accumulated lines followed by the
inline comment; and on a concrete block with a multi-line comment plus an
inline comment the parsed comment is their space-joined concatenation
with the inline text last, while a comment separated by a blank line
(stale comment) does not carry over to the next value. -/
theorem c6_comment_assembly :
    (∀ (st : ProtoLoopState) (raw : List Char),
      pstrip raw = [] → protoStep st raw = { st with comment := [] }) ∧
    (∀ (line : List Char) (acc : List (List Char)) (name : List Char)
       (code : Nat) (ic : List Char),
      matchEnumValue line = some (name, code, some ic) → ic ≠ [] →
      joinSp acc ≠ [] →
      parse_enum_value line acc = some
        { name := name, code := code,
          comment := pstrip (joinSp acc ++ ' ' :: ic),
          deprecated := containsSub ("deprecated".data) (lowerL line) }) ∧
    parse_proto_file c6Proto.data =
      [{ name := "ALPHA".data, code := 1,
         comment := "First part. Second part. inline note".data,
         deprecated := false },
       { name := "BETA".data, code := 2, comment := [], deprecated := false }] := by
  refine ⟨?_, ?_, by decide⟩
  · intro st raw h
    unfold protoStep
    rw [h, if_pos rfl]
  · intro line acc name code ic hm hic hacc
    simp only [parse_enum_value, hm]
    rw [if_pos hic, if_pos hacc, pstrip_idem]

/-- Witness for C6: a whitespace-only line clears a non-empty accumulator,
and a concrete value line with inline comment joins a concrete
accumulator. -/
theorem c6_witness :
    (pstrip ("   ".data) = [] ∧
     protoStep { comment := ["old".data], codes := [] } ("   ".data) =
       { comment := [],
         codes := [] } ∧
     matchEnumValue ("G = 3; // tail".data) =
       some ("G".data, 3, some ("tail".data)) ∧
     parse_enum_value ("G = 3; // tail".data) ["lead".data] =
       some { name := "G".data, code := 3,
              comment := pstrip (joinSp ["lead".data] ++ ' ' :: "tail".data),
              deprecated := false }) :=
  ⟨by decide,
   c6_comment_assembly.1 { comment := ["old".data], codes := [] } _ (by decide),
   by decide,
   by
    have h := c6_comment_assembly.2.1 ("G = 3; // tail".data) ["lead".data]
      ("G".data) 3 ("tail".data) (by decide) (by decide) (by decide)
    rw [h]
    decide⟩

/-! ## Claim C7 -/

theorem containsSub_cons (pat : List Char) (c : Char) (cs : List Char) :
    containsSub pat (c :: cs) = (pat.isPrefixOf (c :: cs) || containsSub pat cs) :=
  rfl

theorem containsSub_of_isPrefixOf (pat s : List Char)
    (h : pat.isPrefixOf s = true) : containsSub pat s = true := by
  cases s with
  | nil =>
    cases pat with
    | nil => rfl
    | cons p ps => exact absurd h (by simp [List.isPrefixOf])
  | cons c cs =>
    rw [containsSub_cons, h, Bool.true_or]

/-- A true deprecation-annotation hit implies the lowercase substring
deprecated occurs in the lowercased line. -/
theorem deprSubstring_of_hasDeprBracket :
    ∀ s : List Char, hasDeprBracket s = true →
      containsSub ("deprecated".data) (lowerL s) = true := by
  intro s hs
  induction s with
  | nil => exact absurd hs (by simp [hasDeprBracket])
  | cons c cs ih =>
    rw [hasDeprBracket, Bool.or_eq_true] at hs
    rcases hs with hat | htail
    · have hpre : ("[deprecated".data).isPrefixOf (c :: cs) = true := by
        unfold deprBracketAt at hat
        by_cases hp : ("[deprecated".data).isPrefixOf (c :: cs) = true
        · exact hp
        · rw [if_neg hp] at hat
          exact absurd hat (by simp)
      rw [List.isPrefixOf_iff_prefix] at hpre
      obtain ⟨t, ht⟩ := hpre
      have hcs : lowerL (c :: cs) =
          '[' :: ("deprecated".data ++ lowerL t) := by
        rw [← ht]
        show List.map Char.toLower ("[deprecated".data ++ t) = _
        rw [List.map_append]
        rfl
      rw [hcs, containsSub_cons, Bool.or_eq_true]
      right
      exact containsSub_of_isPrefixOf _ _
        (List.isPrefixOf_iff_prefix.mpr ⟨lowerL t, rfl⟩)
    · show (("deprecated".data).isPrefixOf (lowerL (c :: cs)) ||
        containsSub ("deprecated".data) (lowerL cs)) = true
      rw [ih htail, Bool.or_true]

/-! ## Claim C8 -/

theorem repAllGo_of_not_contains (pat r : List Char) :
    ∀ (f : Nat) (s : List Char), s.length ≤ f → containsSub pat s = false →
      repAllGo pat r f s = s := by
  intro f
  induction f with
  | zero =>
    intro s hs hc
    cases s with
    | nil => rfl
    | cons c cs => simp at hs
  | succ f ih =>
    intro s hs hc
    cases s with
    | nil => rfl
    | cons c cs =>
      rw [containsSub_cons] at hc
      have h1 : pat.isPrefixOf (c :: cs) = false := by
        cases hx : pat.isPrefixOf (c :: cs)
        · rfl
        · rw [hx, Bool.true_or] at hc
          exact absurd hc (by simp)
      have h2 : containsSub pat cs = false := by
        rw [h1, Bool.false_or] at hc
        exact hc
      simp only [repAllGo, h1, Bool.false_eq_true, if_false]
      rw [ih cs (by simpa using Nat.le_of_succ_le_succ hs) h2]

theorem containsSub_append_self (pat b : List Char) (hp : pat ≠ []) :
    ∀ a : List Char, containsSub pat (a ++ pat ++ b) = true := by
  intro a
  induction a with
  | nil =>
    cases pat with
    | nil => exact absurd rfl hp
    | cons p ps =>
      exact containsSub_of_isPrefixOf _ _
        (List.isPrefixOf_iff_prefix.mpr
          (by simp [List.prefix_append]))
  | cons c a' ih =>
    show (pat.isPrefixOf (c :: (a' ++ pat ++ b)) ||
      containsSub pat (a' ++ pat ++ b)) = true
    rw [ih, Bool.or_true]

theorem repAllGo_boundary (pat r b : List Char) (hp : pat ≠ [])
    (hb : containsSub pat b = false) :
    ∀ (a : List Char) (f : Nat), (a ++ pat ++ b).length ≤ f →
      (∀ i, i < a.length → pat.isPrefixOf ((a ++ pat ++ b).drop i) = false) →
      repAllGo pat r f (a ++ pat ++ b) = a ++ r ++ b := by
  intro a
  induction a with
  | nil =>
    intro f hf hpos
    cases pat with
    | nil => exact absurd rfl hp
    | cons p ps =>
      cases f with
      | zero => simp at hf
      | succ f =>
        have hpre : (p :: ps).isPrefixOf (p :: (ps ++ b)) = true := by
          rw [List.isPrefixOf_iff_prefix]
          exact ⟨b, by simp⟩
        show repAllGo (p :: ps) r (f + 1) (p :: (ps ++ b)) = [] ++ r ++ b
        simp only [repAllGo, hpre, if_true]
        have hd : List.drop ((p :: ps).length - 1) (ps ++ b) = b :=
          List.drop_left' (by simp)
        rw [hd, repAllGo_of_not_contains (p :: ps) r f b ?_ hb]
        · rfl
        · have := hf
          simp only [List.length_cons, List.length_append] at this
          omega
  | cons c a' ih =>
    intro f hf hpos
    cases f with
    | zero => simp at hf
    | succ f =>
      have h0 : pat.isPrefixOf (c :: (a' ++ pat ++ b)) = false := by
        have h := hpos 0 (by simp)
        simpa using h
      show repAllGo pat r (f + 1) (c :: (a' ++ pat ++ b)) = (c :: a') ++ r ++ b
      simp only [repAllGo, h0, Bool.false_eq_true, if_false]
      rw [ih f ?_ ?_]
      · rfl
      · have := hf
        simp only [List.length_cons, List.length_append] at this ⊢
        omega
      · intro i hi
        have h := hpos (i + 1) (by simpa using Nat.succ_lt_succ hi)
        rwa [show ((c :: a') ++ pat ++ b) = c :: (a' ++ pat ++ b) from rfl,
          List.drop_succ_cons] at h

/-- Python replace on a text with a marked occurrence: when the marker
occurs nowhere before that occurrence and nowhere after it, the
replacement rewrites exactly that occurrence. -/
theorem repAll_boundary (pat r a b : List Char) (hp : pat ≠ [])
    (hpos : ∀ i, i < a.length → pat.isPrefixOf ((a ++ pat ++ b).drop i) = false)
    (hb : containsSub pat b = false) :
    repAll pat r (a ++ pat ++ b) = a ++ r ++ b :=
  repAllGo_boundary pat r b hp hb a (a ++ pat ++ b).length (Nat.le_refl _) hpos

/-- The status code used in the concrete part of C8's theorem. -/
def c8St : StatusCode :=
  { name := "FAILED".data, code := 7, comment := "Something failed.".data,
    deprecated := false }

/-- A hand-written source containing four of the five anchors; the
init-cases marker (the default branch) is missing. -/
def c8Content : String :=
  "    case ok  // = 0\n    /// swift-format-ignore: AlwaysUseLowerCamelCase\n    case unrecognized(Int32)\n        case 0: self = .ok\n        case .ok: return 0\n        case .unrecognized(let i): return i\n        .ok,\n    ]\n\x7d\n\n// minimal edit from proto-generated file:\n        0: \"OK\",\n        ]\n\x7d\n\nextension Status: Sendable\n"

/-- C8: a present anchor (unique occurrence) receives the generated text
immediately before it and produces no warning; an absent anchor leaves
the content unmodified and produces the warning; and on a concrete source
missing exactly the init-cases anchor, the other four sections all
receive their insertion while the init insertion is skipped with its
warning. -/
theorem c8_anchor_insertion :
    (∀ (a b t m : List Char) (nm : String),
      m ≠ [] →
      (∀ i, i < a.length → m.isPrefixOf ((a ++ m ++ b).drop i) = false) →
      containsSub m b = false →
      insert_before_marker (a ++ m ++ b) m t nm =
        (a ++ (t ++ '\n' :: m) ++ b, none)) ∧
    (∀ (content m t : List Char) (nm : String),
      containsSub m content = false →
      insert_before_marker content m t nm = (content, some (warnFor nm))) ∧
    (∀ (a b t suf m : List Char) (nm : String),
      m ≠ [] →
      (∀ i, i < a.length → m.isPrefixOf ((a ++ m ++ b).drop i) = false) →
      containsSub m b = false →
      insert_before_pattern (a ++ m ++ b) m t suf nm =
        (a ++ (t ++ suf) ++ b, none)) ∧
    (∀ (content m t suf : List Char) (nm : String),
      containsSub m content = false →
      insert_before_pattern content m t suf nm = (content, some (warnFor nm))) ∧
    ((apply_swift_updates c8Content.data [c8St]).2 = [warnFor "init cases"] ∧
     containsSub (generate_case_declaration c8St ++ "\n\n".data ++ caseMarker)
       (apply_swift_updates c8Content.data [c8St]).1 = true ∧
     containsSub (generate_init_case c8St)
       (apply_swift_updates c8Content.data [c8St]).1 = false ∧
     containsSub (generate_raw_value_case c8St ++ '\n' :: rawValueMarker)
       (apply_swift_updates c8Content.data [c8St]).1 = true ∧
     containsSub (generate_all_cases_entry c8St ++ allCasesSuffix)
       (apply_swift_updates c8Content.data [c8St]).1 = true ∧
     containsSub (generate_name_map_entry c8St ++ nameMapSuffix)
       (apply_swift_updates c8Content.data [c8St]).1 = true) := by
  refine ⟨?_, ?_, ?_, ?_, by decide, by decide, by decide, by decide, by decide, by decide⟩
  · intro a b t m nm hm hpos hb
    unfold insert_before_marker
    rw [if_pos (containsSub_append_self m b hm a),
      repAll_boundary m (t ++ '\n' :: m) a b hm hpos hb]
  · intro content m t nm h
    unfold insert_before_marker
    rw [if_neg (by rw [h]; exact fun hx => absurd hx (by simp))]
  · intro a b t suf m nm hm hpos hb
    unfold insert_before_pattern
    rw [if_pos (containsSub_append_self m b hm a),
      repAll_boundary m (t ++ suf) a b hm hpos hb]
  · intro content m t suf nm h
    unfold insert_before_pattern
    rw [if_neg (by rw [h]; exact fun hx => absurd hx (by simp))]

/-- Witness for C8's general conjuncts at tiny concrete texts. -/
theorem c8_witness :
    (("M".data : List Char) ≠ [] ∧
     insert_before_marker ("aa".data ++ "M".data ++ "bb".data) ("M".data)
       ("T".data) "sec" =
       ("aa".data ++ ("T".data ++ '\n' :: "M".data) ++ "bb".data, none)) ∧
    insert_before_marker ("abc".data) ("M".data) ("T".data) "sec2" =
      ("abc".data, some (warnFor "sec2")) ∧
    insert_before_pattern ("aa".data ++ "M".data ++ "bb".data) ("M".data)
      ("T".data) ("S".data) "sec3" =
      ("aa".data ++ ("T".data ++ "S".data) ++ "bb".data, none) ∧
    insert_before_pattern ("abc".data) ("M".data) ("T".data) ("S".data) "sec4" =
      ("abc".data, some (warnFor "sec4")) :=
  ⟨⟨by decide,
    c8_anchor_insertion.1 ("aa".data) ("bb".data) ("T".data) ("M".data) "sec"
      (by decide) (by decide) (by decide)⟩,
   c8_anchor_insertion.2.1 ("abc".data) ("M".data) ("T".data) "sec2" (by decide),
   c8_anchor_insertion.2.2.1 ("aa".data) ("bb".data) ("T".data) ("S".data)
     ("M".data) "sec3" (by decide) (by decide) (by decide),
   c8_anchor_insertion.2.2.2.1 ("abc".data) ("M".data) ("T".data) ("S".data)
     "sec4" (by decide)⟩

def c7Line : List Char := "FOO = 1; // will be deprecated soon".data

/-- C7 counterexample: this enum-value line carries no deprecation
annotation, yet the parsed StatusCode's deprecated flag is true, because
the code checks for the substring deprecated anywhere in the lowercased
line (here inside the inline comment). -/
theorem c7_counterexample :
    hasDeprBracket c7Line = false ∧
    (parse_enum_value c7Line []).map StatusCode.deprecated = some true :=
  ⟨by decide, by decide⟩

/-- C7 amended: the emitted deprecated flag equals the case-insensitive
substring check for deprecated anywhere on the line; annotation presence
implies the flag, but the converse fails (see the counterexample). -/
theorem c7_deprecated_flag_substring (line : List Char)
    (acc : List (List Char)) (sc : StatusCode)
    (h : parse_enum_value line acc = some sc) :
    sc.deprecated = containsSub ("deprecated".data) (lowerL line) ∧
    (hasDeprBracket line = true → sc.deprecated = true) := by
  have hdep : sc.deprecated = containsSub ("deprecated".data) (lowerL line) := by
    unfold parse_enum_value at h
    cases hm : matchEnumValue line with
    | none =>
      rw [hm] at h
      exact absurd h (by simp)
    | some v =>
      rw [hm] at h
      obtain ⟨name, code, inline⟩ := v
      simp only [Option.some.injEq] at h
      rw [← h]
  exact ⟨hdep, fun ha => by rw [hdep]; exact deprSubstring_of_hasDeprBracket line ha⟩

/-- Witness for C7's amended theorem at a line that does carry the
annotation. -/
theorem c7_witness :
    parse_enum_value ("BAR = 2 [deprecated = true];".data) [] =
      some { name := "BAR".data, code := 2, comment := [], deprecated := true } ∧
    ({ name := "BAR".data, code := 2, comment := [],
       deprecated := true } : StatusCode).deprecated =
      containsSub ("deprecated".data) (lowerL ("BAR = 2 [deprecated = true];".data)) ∧
    (hasDeprBracket ("BAR = 2 [deprecated = true];".data) = true →
      ({ name := "BAR".data, code := 2, comment := [],
         deprecated := true } : StatusCode).deprecated = true) :=
  ⟨by decide,
   (c7_deprecated_flag_substring _ [] _ (by decide)).1,
   (c7_deprecated_flag_substring _ [] _ (by decide)).2⟩

/-- Witness for C10 at a concrete three-line file: the update carries a
new comment for the case line at index 2, whose old comment occupies
lines 0 and 1. -/
theorem c10_witness :
    ∃ ins : List (List Char),
      applyOneCommentUpdate
        ["    /// old a".data, "    /// old b".data, "    case a  // = 1".data,
         "    case b  // = 2".data]
        ({ name := "A".data, code := 1, comment := "new".data, deprecated := false },
         { swift_name := "a".data, code := 1, comment := "old a old b".data,
           deprecated := false, line_start := 0, line_end := 2 }) =
        (["    /// old a".data, "    /// old b".data, "    case a  // = 1".data,
          "    case b  // = 2".data].take 0 ++ ins ++
         ["    /// old a".data, "    /// old b".data, "    case a  // = 1".data,
          "    case b  // = 2".data].drop 2) ∧
      ins.length ≤ 1 ∧
      ∀ c ∈ ins, ("    ///".data) <+: c :=
  c10_comment_update_frame _ _ (by decide) (by decide)

end SyncStatus
